import Mathlib

/-!
Verification of the contact-form submission service of the Deepak Dass
portfolio repository.

The repository contains two artifacts:
* an API/implementation document for `POST /api/contact` whose illustrative
  Express implementation (rate limiter ordered before the validator chain,
  `validationResult` accumulating one error per field, try/catch mapping to
  a generic 500 response) together with the API specification tables
  (field length bounds, rolling 1-hour window with ceiling 5, response
  shapes) defines the backend behaviour modelled here; and
* `assets/js/main.js`, whose `initContactForm` submit handler and
  `showFormMessage` are modelled as an event-trace function.

Strings are modelled as lists of character codes (`List Nat`), matching
JavaScript's view of strings as sequences of code units.
-/

namespace Portfolio

/-- Character-code strings: a JavaScript string as its list of code points. -/
abbrev Str := List Nat

/-- Code points of a Lean string literal, for writing concrete inputs. -/
def strCodes (s : String) : Str := s.toList.map Char.toNat

/-- Whitespace test on a code point (ASCII whitespace, as removed by
`String.prototype.trim` / the express-validator `trim` sanitizer). -/
def isWsB (n : Nat) : Bool :=
  decide (n = 32 ∨ n = 9 ∨ n = 10 ∨ n = 13 ∨ n = 11 ∨ n = 12)

/-- Drop leading whitespace. -/
def dropWs (l : Str) : Str := l.dropWhile isWsB

/-- Drop trailing whitespace. -/
def rtrim (l : Str) : Str := (dropWs l.reverse).reverse

/-- `trim`: drop leading and trailing whitespace, as in
`String.prototype.trim` (main.js) and express-validator's `.trim()`. -/
def trim (l : Str) : Str := rtrim (dropWs l)

/-- ASCII lower-casing of one code point (the case normalization performed
by `normalizeEmail` / `toLowerCase`). -/
def toLowerN (n : Nat) : Nat := if 65 ≤ n ∧ n ≤ 90 then n + 32 else n

/-- Lower-case every character. -/
def lowerStr (l : Str) : Str := l.map toLowerN

/-- One left-to-right pass of HTML-tag stripping (the behaviour of the usual
`replace(/<[^>]*>/g, '')` sanitizer the API document's "Strip HTML tags"
rule refers to): outside a tag, `<` (code 60) opens a tag; inside a tag,
`>` (code 62) closes and discards it; an unterminated `<...` tail is kept
literally.  `buf` holds the pending (reversed) tag characters. -/
def stripGo : List Nat → Bool → List Nat → List Nat
  | [], inTag, buf => if inTag then buf.reverse else []
  | c :: cs, inTag, buf =>
    if inTag then
      if c = 62 then stripGo cs false [] else stripGo cs true (c :: buf)
    else
      if c = 60 then stripGo cs true [c] else c :: stripGo cs false []

/-- Strip HTML markup from a string. -/
def stripTags (l : Str) : Str := stripGo l false []

/-- Does the string still contain a complete `<...>` tag (a `<` with some
`>` after it)? -/
def hasTag : List Nat → Bool
  | [] => false
  | c :: cs => (c == 60 && cs.contains 62) || hasTag cs

/-- Sanitization of the three free-text fields (`name`, `subject`,
`message`): strip HTML markup, then trim surrounding whitespace. -/
def sanitizeText (s : Str) : Str := trim (stripTags s)

/-- Sanitization of the `email` field: trim and lower-case
(`normalizeEmail`); e-mail is not markup-stripped. -/
def sanitizeEmail (s : Str) : Str := lowerStr (trim s)

/-- A complete (schema-checked) contact payload. -/
structure ContactPayload where
  name : Str
  email : Str
  subject : Str
  message : Str
deriving DecidableEq

/-- Sanitize all four fields of a payload. -/
def sanitize (p : ContactPayload) : ContactPayload :=
  ⟨sanitizeText p.name, sanitizeEmail p.email,
   sanitizeText p.subject, sanitizeText p.message⟩

/-- The e-mail shape check of the repository (the regular expression
`/^[^\s@]+@[^\s@]+\.[^\s@]+$/` of main.js, also standing in for
express-validator's `isEmail`): a non-empty local part without whitespace
or `@` (64), one `@`, and a domain without whitespace or `@` containing a
dot (46) that is neither its first nor its last character. -/
def emailOk (s : Str) : Bool :=
  let loc := s.takeWhile (fun c => c ≠ 64)
  let rest := s.dropWhile (fun c => c ≠ 64)
  match rest with
  | [] => false
  | _ :: dom =>
    decide (loc ≠ []) && decide (dom ≠ []) &&
    dom.all (fun c => c ≠ 64) &&
    loc.all (fun c => !isWsB c) && dom.all (fun c => !isWsB c) &&
    ((dom.drop 1).dropLast).contains 46

/-- Names of the four required payload fields. -/
inductive FieldName where
  | name | email | subject | message
deriving DecidableEq

/-- Reason attached to a field error: the field is absent from the payload,
or its (sanitized) value violates its constraint. -/
inductive FieldReason where
  | missing | invalid
deriving DecidableEq

/-- A `(field, reason)` entry of the 400 response's `errors` list. -/
abbrev FieldErr := FieldName × FieldReason

/-- The raw, untyped request body: each field may be absent. -/
structure RawPayload where
  name : Option Str
  email : Option Str
  subject : Option Str
  message : Option Str
deriving DecidableEq

/-- `name` constraint: 2-100 characters. -/
def nameOk (s : Str) : Bool := decide (2 ≤ s.length ∧ s.length ≤ 100)

/-- `email` constraint: valid shape and at most 254 characters. -/
def emailFieldOk (s : Str) : Bool := emailOk s && decide (s.length ≤ 254)

/-- `subject` constraint: 5-200 characters. -/
def subjectOk (s : Str) : Bool := decide (5 ≤ s.length ∧ s.length ≤ 200)

/-- `message` constraint: 10-2000 characters. -/
def messageOk (s : Str) : Bool := decide (10 ≤ s.length ∧ s.length ≤ 2000)

/-- One validator of the chain: a missing field yields one `missing` entry,
a present field failing its check yields one `invalid` entry. -/
def checkField (f : FieldName) (v : Option Str) (ok : Str → Bool) :
    List FieldErr :=
  match v with
  | none => [(f, FieldReason.missing)]
  | some s => if ok s then [] else [(f, FieldReason.invalid)]

/-- The validator chain of the endpoint: each of the four `body(...)`
validators runs on its own field (on the sanitized value, since the
sanitizers run inside the chain) and `validationResult` collects every
error, so the errors of distinct fields accumulate. -/
def validateRaw (rp : RawPayload) : List FieldErr :=
  checkField FieldName.name rp.name (fun s => nameOk (sanitizeText s)) ++
  checkField FieldName.email rp.email (fun s => emailFieldOk (sanitizeEmail s)) ++
  checkField FieldName.subject rp.subject (fun s => subjectOk (sanitizeText s)) ++
  checkField FieldName.message rp.message (fun s => messageOk (sanitizeText s))

/-- Is a single optional field value offending (missing or invalid)? -/
def offendsOpt (v : Option Str) (ok : Str → Bool) : Bool :=
  match v with
  | none => true
  | some s => !ok s

/-- Is field `f` of the payload offending? -/
def offends (rp : RawPayload) (f : FieldName) : Bool :=
  match f with
  | FieldName.name => offendsOpt rp.name (fun s => nameOk (sanitizeText s))
  | FieldName.email => offendsOpt rp.email (fun s => emailFieldOk (sanitizeEmail s))
  | FieldName.subject => offendsOpt rp.subject (fun s => subjectOk (sanitizeText s))
  | FieldName.message => offendsOpt rp.message (fun s => messageOk (sanitizeText s))

/-- Rolling rate-limit window: one hour, in seconds
(`windowMs: 60 * 60 * 1000`). -/
def WINDOW : Nat := 3600

/-- Rate-limit ceiling per source address per window (`max: 5`). -/
def MAXREQ : Nat := 5

/-- Bounded retry policy of the notification dispatch.
Modelled from the spec: the document's "Implement retry logic for failed
sends" with the specified bound of up to 3 attempts; the e-mail sending
logic itself is a placeholder in the repository. -/
def RETRIES : Nat := 3

/-- Is a counted request of timestamp `ts` still inside the rolling window
at time `t`? -/
def inWindow (t ts : Nat) : Bool := decide (t < ts + WINDOW)

/-- Drop the counted requests that have aged out of the window
(lazy expiry on lookup). -/
def prune (log : List Nat) (t : Nat) : List Nat := log.filter (inWindow t)

/-- Rate-limiter state: for each source address, the timestamps of its
counted requests (newest first).
Modelled from the spec: the limiter's internal store is not part of the
repository; the API document specifies "5 requests per hour per IP
address" over a rolling 1-hour window, realised here as a
sliding-window log of the requests admitted by the limiter. -/
def RLState := Str → List Nat

/-- Point update of the rate-limiter state. -/
def setLog (st : RLState) (a : Str) (l : List Nat) : RLState :=
  fun b => if b = a then l else st b

/-- Smaller of two timestamps. -/
def minN (a b : Nat) : Nat := if a ≤ b then a else b

/-- Timestamp of the oldest counted request (0 on an empty log). -/
def minTs : List Nat → Nat
  | [] => 0
  | x :: xs => xs.foldl minN x

/-- Seconds until the oldest counted request ages out of the window. -/
def retryAfterSeconds (log : List Nat) (t : Nat) : Nat :=
  minTs log + WINDOW - t

/-- Outcome of one delivery attempt of the notification channel. -/
inductive DeliveryOutcome where
  | receipt
  | failure (cause : String)
deriving DecidableEq

/-- Did dispatch succeed within the bounded retry policy: some attempt
among the first `RETRIES` returns a receipt? -/
def deliverOk (deliver : Nat → DeliveryOutcome) : Bool :=
  (List.range RETRIES).any (fun i => deliver i == DeliveryOutcome.receipt)

/-- Result of a `submit` call, one constructor per response shape. -/
inductive SubmissionResult where
  | ok
  | validationFailed (errors : List FieldErr)
  | rateLimited (retryAfter : Nat)
  | dispatchFailed
deriving DecidableEq

/-- HTTP status of each result shape. -/
def httpStatus : SubmissionResult → Nat
  | SubmissionResult.ok => 200
  | SubmissionResult.validationFailed _ => 400
  | SubmissionResult.rateLimited _ => 429
  | SubmissionResult.dispatchFailed => 500

/-- The top-level `message` string of each response body.  The 500 body
carries only this constant text. -/
def responseMessage : SubmissionResult → String
  | SubmissionResult.ok => "Message sent successfully"
  | SubmissionResult.validationFailed _ => "Validation error"
  | SubmissionResult.rateLimited _ => "Too many requests. Please try again later."
  | SubmissionResult.dispatchFailed =>
      "An error occurred while processing your request. Please try again later."

/-- `submit(rawPayload, sourceAddress)` at time `t`, with `deliver` the
attempt-indexed behaviour of the notification channel.  The middleware
order is that of the endpoint: the rate limiter runs first (counting the
request before any validation), then the validator chain, then the
dispatch guarded by try/catch. -/
def submit (deliver : Nat → DeliveryOutcome) (st : RLState)
    (rp : RawPayload) (a : Str) (t : Nat) : SubmissionResult × RLState :=
  let log := prune (st a) t
  if MAXREQ ≤ log.length then
    (SubmissionResult.rateLimited (retryAfterSeconds log t), setLog st a log)
  else
    let st' := setLog st a (t :: log)
    if validateRaw rp = [] then
      if deliverOk deliver then (SubmissionResult.ok, st')
      else (SubmissionResult.dispatchFailed, st')
    else (SubmissionResult.validationFailed (validateRaw rp), st')

/-- Process a sequence of requests from one source address with one payload
and one channel behaviour, threading the limiter state and collecting the
results. -/
def runSame (deliver : Nat → DeliveryOutcome) (rp : RawPayload) (a : Str) :
    RLState → List Nat → List SubmissionResult × RLState
  | st, [] => ([], st)
  | st, t :: ts =>
    let r := submit deliver st rp a t
    let rest := runSame deliver rp a r.2 ts
    (r.1 :: rest.1, rest.2)

/-- Kind of a form status message (`showFormMessage`'s `type`). -/
inductive MsgKind where
  | success | error
deriving DecidableEq

/-- What the `fetch('/api/contact', ...)` call produces: a response with its
`ok` flag and the optional `message` of the parsed JSON body, or a thrown
network/parse error. -/
inductive FetchOutcome where
  | response (ok : Bool) (body : Option String)
  | networkError
deriving DecidableEq

/-- Observable DOM actions of the submit handler, in order. -/
inductive Ev where
  | setDisabled (b : Bool)
  | setLabel (s : String)
  | fetchStart (payload : ContactPayload)
  | fetchEnd
  | showMessage (text : String) (kind : MsgKind)
  | reset
deriving DecidableEq

/-- Client message for empty fields. -/
def fillAllMsg : String := "Please fill in all fields."

/-- Client message for a bad e-mail. -/
def invalidEmailMsg : String := "Please enter a valid email address."

/-- Client success message (a fixed string, independent of the response
body). -/
def clientSuccessMsg : String :=
  "Message sent successfully! I'll get back to you soon."

/-- Client failure message (a fixed string, independent of the response
body or error). -/
def clientErrorMsg : String :=
  "Sorry, there was an error sending your message. Please try again or email me directly."

/-- The in-flight label of the submit button. -/
def sendingLabel : String := "Sending..."

/-- Raw values of the four form controls at submit time. -/
structure FormInput where
  name : Str
  email : Str
  subject : Str
  message : Str
deriving DecidableEq

/-- The submit handler installed by `initContactForm` (main.js), as the
trace of DOM actions it performs: trim the four fields; if any is empty or
the e-mail fails the regex, show an error and stop; otherwise disable the
submit button, set its label to "Sending...", POST the trimmed fields,
show the fixed success message and reset the form on an ok response or the
fixed error message otherwise, and finally re-enable the button and
restore its original label. -/
def contactFormSubmit (inp : FormInput) (origLabel : String)
    (f : FetchOutcome) : List Ev :=
  let nameT := trim inp.name
  let emailT := trim inp.email
  let subjectT := trim inp.subject
  let messageT := trim inp.message
  if nameT = [] ∨ emailT = [] ∨ subjectT = [] ∨ messageT = [] then
    [Ev.showMessage fillAllMsg MsgKind.error]
  else if emailOk emailT = false then
    [Ev.showMessage invalidEmailMsg MsgKind.error]
  else
    [Ev.setDisabled true, Ev.setLabel sendingLabel,
     Ev.fetchStart ⟨nameT, emailT, subjectT, messageT⟩, Ev.fetchEnd] ++
    (match f with
     | FetchOutcome.response true _ =>
         [Ev.showMessage clientSuccessMsg MsgKind.success, Ev.reset]
     | FetchOutcome.response false _ =>
         [Ev.showMessage clientErrorMsg MsgKind.error]
     | FetchOutcome.networkError =>
         [Ev.showMessage clientErrorMsg MsgKind.error]) ++
    [Ev.setDisabled false, Ev.setLabel origLabel]

/-! Concrete fixtures used by witnesses and counterexamples. -/

/-- A channel that delivers on the first attempt. -/
def dOk : Nat → DeliveryOutcome := fun _ => DeliveryOutcome.receipt

/-- A channel that fails every attempt with a transport error. -/
def dFail : Nat → DeliveryOutcome := fun _ => DeliveryOutcome.failure "smtp timeout"

/-- A channel that fails every attempt with a different transport error. -/
def dFail2 : Nat → DeliveryOutcome := fun _ => DeliveryOutcome.failure "connection refused"

/-- A source address. -/
def addr0 : Str := strCodes "203.0.113.7"

/-- Rate-limiter state with no counted requests. -/
def stEmpty : RLState := fun _ => []

/-- Rate-limiter state in which `addr0` has five counted requests at
time 0. -/
def stFull : RLState := fun b => if b = addr0 then [0, 0, 0, 0, 0] else []

/-- A payload passing every check. -/
def rpGood : RawPayload :=
  ⟨some (strCodes "Jane Doe"), some (strCodes "jane@example.com"),
   some (strCodes "Hello there"), some (strCodes "This is a test message.")⟩

/-- A payload with a missing name, a malformed e-mail and a short
subject. -/
def rpBad : RawPayload :=
  ⟨none, some (strCodes "invalid-email"),
   some (strCodes "Hi"), some (strCodes "This is a test message.")⟩

/-- The empty request body: all four fields missing. -/
def rpEmpty : RawPayload := ⟨none, none, none, none⟩

/-- A valid contact payload (the documented concrete scenario). -/
def pJane : ContactPayload :=
  ⟨strCodes "Jane Doe", strCodes "jane@example.com",
   strCodes "Hello there", strCodes "This is a test message."⟩

/-- Does a whole payload pass field validation (after sanitization)? -/
def payloadValid (p : ContactPayload) : Bool :=
  nameOk (sanitizeText p.name) && emailFieldOk (sanitizeEmail p.email) &&
  subjectOk (sanitizeText p.subject) && messageOk (sanitizeText p.message)

/-- Form control values passing the client-side checks (name padded with
whitespace that the handler trims). -/
def inpGood : FormInput :=
  ⟨strCodes " Jane Doe ", strCodes "jane@example.com",
   strCodes "Hello there", strCodes "This is a test message."⟩

/-- Form control values whose name trims to the empty string. -/
def inpNoName : FormInput :=
  ⟨strCodes "   ", strCodes "jane@example.com",
   strCodes "Hello there", strCodes "This is a test message."⟩

/-- The submit button's resting label. -/
def okLabel : String := "Send Message"

/-! ### Whitespace trimming -/

theorem dropWs_dropWs (l : Str) : dropWs (dropWs l) = dropWs l := by
  induction l with
  | nil => rfl
  | cons c cs ih =>
    by_cases h : isWsB c = true
    · simp [dropWs, List.dropWhile_cons, h] at ih ⊢; exact ih
    · simp [dropWs, List.dropWhile_cons, h]

theorem dropWs_shape (l : Str) :
    dropWs l = [] ∨ ∃ c t, dropWs l = c :: t ∧ isWsB c = false := by
  induction l with
  | nil => exact Or.inl rfl
  | cons c cs ih =>
    by_cases h : isWsB c = true
    · simpa [dropWs, List.dropWhile_cons, h] using ih
    · exact Or.inr ⟨c, cs, by simp [dropWs, List.dropWhile_cons, h],
        by simpa using h⟩

theorem rtrim_append (y : Str) : ∃ u, rtrim y ++ u = y := by
  obtain ⟨u, hu⟩ := List.dropWhile_suffix (l := y.reverse) (p := isWsB)
  refine ⟨u.reverse, ?_⟩
  have := congrArg List.reverse hu
  simpa [rtrim, dropWs] using this

theorem rtrim_idem (y : Str) : rtrim (rtrim y) = rtrim y := by
  simp only [rtrim, List.reverse_reverse]
  rw [dropWs_dropWs]

theorem contains_eq_false_iff (l : List Nat) (x : Nat) :
    l.contains x = false ↔ x ∉ l := by
  induction l with
  | nil => simp
  | cons c cs ih =>
    rw [List.contains_cons]
    simp [Bool.or_eq_false_iff, ih, not_or]

theorem dropWs_eq_self_of_head (z : Str)
    (h : z = [] ∨ ∃ c t, z = c :: t ∧ isWsB c = false) : dropWs z = z := by
  rcases h with h | ⟨c, t, h, hc⟩
  · simp [h, dropWs]
  · simp [h, dropWs, List.dropWhile_cons, hc]

theorem dropWs_rtrim_dropWs (l : Str) :
    dropWs (rtrim (dropWs l)) = rtrim (dropWs l) := by
  rcases dropWs_shape l with h | ⟨c, t, h, hc⟩
  · rw [h]; rfl
  · rw [h]
    obtain ⟨u, hu⟩ := rtrim_append (c :: t)
    apply dropWs_eq_self_of_head
    cases hr : rtrim (c :: t) with
    | nil => exact Or.inl rfl
    | cons c' t' =>
      rw [hr] at hu
      have hc' : c' = c := by
        have : c' :: (t' ++ u) = c :: t := by simpa using hu
        exact (List.cons.injEq _ _ _ _ ▸ this).1
      exact Or.inr ⟨c', t', rfl, hc' ▸ hc⟩

theorem trim_idem (l : Str) : trim (trim l) = trim l := by
  unfold trim
  rw [dropWs_rtrim_dropWs, rtrim_idem]

theorem rtrim_sublist (y : Str) : List.Sublist (rtrim y) y := by
  obtain ⟨u, hu⟩ := rtrim_append y
  nth_rewrite 2 [← hu]
  exact List.sublist_append_left _ _

theorem trim_sublist (l : Str) : List.Sublist (trim l) l := by
  unfold trim
  exact (rtrim_sublist (dropWs l)).trans (List.dropWhile_suffix _).sublist

/-! ### HTML-tag stripping -/

theorem stripGo_nil (inTag : Bool) (buf : List Nat) :
    stripGo [] inTag buf = if inTag then buf.reverse else [] := rfl

theorem stripGo_cons (c : Nat) (cs : List Nat) (inTag : Bool)
    (buf : List Nat) :
    stripGo (c :: cs) inTag buf =
      if inTag then
        (if c = 62 then stripGo cs false [] else stripGo cs true (c :: buf))
      else
        (if c = 60 then stripGo cs true [c] else c :: stripGo cs false []) :=
  rfl

theorem hasTag_cons (c : Nat) (cs : List Nat) :
    hasTag (c :: cs) = ((c == 60 && cs.contains 62) || hasTag cs) := rfl

theorem hasTag_of_no_close (l : List Nat) (h : l.contains 62 = false) :
    hasTag l = false := by
  induction l with
  | nil => rfl
  | cons c cs ih =>
    rw [List.contains_cons, Bool.or_eq_false_iff] at h
    rw [hasTag_cons, h.2, ih h.2]
    simp

theorem hasTag_stripGo (l : List Nat) :
    ∀ inTag buf, buf.contains 62 = false →
      hasTag (stripGo l inTag buf) = false := by
  induction l with
  | nil =>
    intro inTag buf hbuf
    cases inTag with
    | false => rfl
    | true =>
      show hasTag buf.reverse = false
      apply hasTag_of_no_close
      rw [contains_eq_false_iff] at hbuf ⊢
      simpa [List.mem_reverse] using hbuf
  | cons c cs ih =>
    intro inTag buf hbuf
    cases inTag with
    | true =>
      by_cases hc : c = 62
      · rw [stripGo_cons, if_pos rfl, if_pos hc]
        exact ih false [] rfl
      · rw [stripGo_cons, if_pos rfl, if_neg hc]
        apply ih true (c :: buf)
        rw [contains_eq_false_iff] at hbuf ⊢
        intro hm
        rcases List.mem_cons.mp hm with h1 | h1
        · exact hc h1.symm
        · exact hbuf h1
    | false =>
      by_cases hc : c = 60
      · rw [stripGo_cons, if_neg (by simp), if_pos hc]
        apply ih true [c]
        rw [contains_eq_false_iff]
        intro hm
        rcases List.mem_cons.mp hm with h1 | h1
        · omega
        · simp at h1
      · rw [stripGo_cons, if_neg (by simp), if_neg hc, hasTag_cons,
          ih false [] rfl]
        have hcb : (c == 60) = false := by
          simp [hc]
        rw [hcb]
        simp

theorem hasTag_stripTags (l : Str) : hasTag (stripTags l) = false :=
  hasTag_stripGo l false [] rfl

theorem stripGo_no_close (cs : List Nat) :
    ∀ buf, cs.contains 62 = false →
      stripGo cs true buf = buf.reverse ++ cs := by
  induction cs with
  | nil => intro buf _; simp [stripGo_nil]
  | cons c cs' ih =>
    intro buf h
    rw [List.contains_cons, Bool.or_eq_false_iff] at h
    have hc : c ≠ 62 := by
      intro h0
      subst h0
      simpa using h.1
    rw [stripGo_cons, if_pos rfl, if_neg hc, ih (c :: buf) h.2]
    simp

theorem stripTags_of_hasTag_false (l : Str) (h : hasTag l = false) :
    stripTags l = l := by
  induction l with
  | nil => rfl
  | cons c cs ih =>
    rw [hasTag_cons, Bool.or_eq_false_iff, Bool.and_eq_false_iff] at h
    by_cases hc : c = 60
    · have hcs : cs.contains 62 = false := by
        rcases h.1 with h1 | h1
        · exfalso
          subst hc
          simp at h1
        · exact h1
      unfold stripTags
      rw [stripGo_cons, if_neg (by simp), if_pos hc,
        stripGo_no_close cs [c] hcs]
      simp
    · unfold stripTags at ih ⊢
      rw [stripGo_cons, if_neg (by simp), if_neg hc, ih h.2]

theorem hasTag_false_of_sublist (l₁ l₂ : List Nat)
    (hs : List.Sublist l₁ l₂) (h : hasTag l₂ = false) :
    hasTag l₁ = false := by
  induction hs with
  | slnil => rfl
  | cons a hs ih =>
    rw [hasTag_cons, Bool.or_eq_false_iff] at h
    exact ih h.2
  | cons₂ a hs ih =>
    rw [hasTag_cons, Bool.or_eq_false_iff, Bool.and_eq_false_iff] at h
    rw [hasTag_cons, Bool.or_eq_false_iff, Bool.and_eq_false_iff]
    refine ⟨?_, ih h.2⟩
    rcases h.1 with h1 | h1
    · exact Or.inl h1
    · refine Or.inr ?_
      rw [contains_eq_false_iff] at h1 ⊢
      exact fun hm => h1 (hs.subset hm)

theorem stripTags_idem (l : Str) : stripTags (stripTags l) = stripTags l :=
  stripTags_of_hasTag_false _ (hasTag_stripTags l)

theorem sanitizeText_idem (s : Str) :
    sanitizeText (sanitizeText s) = sanitizeText s := by
  unfold sanitizeText
  have h1 : hasTag (trim (stripTags s)) = false :=
    hasTag_false_of_sublist _ _ (trim_sublist _) (hasTag_stripTags s)
  rw [stripTags_of_hasTag_false _ h1, trim_idem]

/-! ### Lower-casing -/

theorem toLowerN_idem (n : Nat) : toLowerN (toLowerN n) = toLowerN n := by
  by_cases h : 65 ≤ n ∧ n ≤ 90
  · rw [show toLowerN n = n + 32 from by unfold toLowerN; rw [if_pos h]]
    unfold toLowerN
    rw [if_neg (by omega)]
  · have hn : toLowerN n = n := by
      unfold toLowerN
      rw [if_neg h]
    rw [hn, hn]

theorem isWsB_toLowerN (n : Nat) : isWsB (toLowerN n) = isWsB n := by
  unfold toLowerN
  by_cases h : 65 ≤ n ∧ n ≤ 90
  · rw [if_pos h]
    have h1 : isWsB (n + 32) = false := by simp [isWsB]; omega
    have h2 : isWsB n = false := by simp [isWsB]; omega
    rw [h1, h2]
  · rw [if_neg h]

theorem isWsB_comp_toLowerN : isWsB ∘ toLowerN = isWsB := by
  funext n
  exact isWsB_toLowerN n

theorem dropWs_lowerStr (l : Str) :
    dropWs (lowerStr l) = lowerStr (dropWs l) := by
  unfold dropWs lowerStr
  rw [List.dropWhile_map, isWsB_comp_toLowerN]

theorem reverse_lowerStr (l : Str) :
    (lowerStr l).reverse = lowerStr l.reverse := by
  simp [lowerStr]

theorem rtrim_lowerStr (l : Str) :
    rtrim (lowerStr l) = lowerStr (rtrim l) := by
  unfold rtrim
  rw [reverse_lowerStr, dropWs_lowerStr, reverse_lowerStr]

theorem lowerStr_idem (l : Str) : lowerStr (lowerStr l) = lowerStr l := by
  unfold lowerStr
  rw [List.map_map]
  exact List.map_congr_left fun a _ => toLowerN_idem a

theorem trim_lowerStr (l : Str) : trim (lowerStr l) = lowerStr (trim l) := by
  unfold trim
  rw [dropWs_lowerStr, rtrim_lowerStr]

theorem sanitizeEmail_idem (s : Str) :
    sanitizeEmail (sanitizeEmail s) = sanitizeEmail s := by
  unfold sanitizeEmail
  rw [trim_lowerStr, trim_idem, lowerStr_idem]

/-- Claim C4: sanitization (markup-stripping and whitespace-trimming of
`name`, `subject` and `message`, trimming and lower-casing of `email`) is
idempotent: re-sanitizing an already-sanitized valid payload yields the
same four field values. -/
theorem sanitize_payload_idem (p : ContactPayload)
    (hv : payloadValid p = true) : sanitize (sanitize p) = sanitize p := by
  cases p with
  | mk n e s m =>
    unfold sanitize
    rw [sanitizeText_idem n, sanitizeEmail_idem e, sanitizeText_idem s,
      sanitizeText_idem m]

/-- Witness for C4 at the documented valid scenario payload. -/
theorem sanitize_payload_idem_w :
    payloadValid pJane = true ∧ sanitize (sanitize pJane) = sanitize pJane :=
  ⟨by decide, sanitize_payload_idem pJane (by decide)⟩

/-! ### Validation accumulates one error per offending field -/

theorem checkField_filter_self (f : FieldName) (v : Option Str)
    (ok : Str → Bool) :
    (checkField f v ok).filter (fun e => decide (e.1 = f)) =
      checkField f v ok := by
  cases v with
  | none => simp [checkField]
  | some s => by_cases hok : ok s = true <;> simp [checkField, hok]

theorem checkField_filter_other (f g : FieldName) (v : Option Str)
    (ok : Str → Bool) (h : g ≠ f) :
    (checkField g v ok).filter (fun e => decide (e.1 = f)) = [] := by
  cases v with
  | none => simp [checkField, h]
  | some s => by_cases hok : ok s = true <;> simp [checkField, hok, h]

theorem checkField_length (f : FieldName) (v : Option Str) (ok : Str → Bool) :
    (checkField f v ok).length = if offendsOpt v ok = true then 1 else 0 := by
  cases v with
  | none => simp [checkField, offendsOpt]
  | some s =>
    unfold checkField offendsOpt
    cases hok : ok s <;> simp [hok]

theorem checkField_eq_nil_iff (f : FieldName) (v : Option Str)
    (ok : Str → Bool) :
    checkField f v ok = [] ↔ offendsOpt v ok = false := by
  cases v with
  | none => simp [checkField, offendsOpt]
  | some s =>
    unfold checkField offendsOpt
    cases hok : ok s <;> simp [hok]

theorem validateRaw_filter (rp : RawPayload) (f : FieldName) :
    ((validateRaw rp).filter (fun e => decide (e.1 = f))).length =
      if offends rp f = true then 1 else 0 := by
  cases f with
  | name =>
    unfold validateRaw offends
    rw [List.filter_append, List.filter_append, List.filter_append,
      checkField_filter_self,
      checkField_filter_other _ _ _ _ (by decide),
      checkField_filter_other _ _ _ _ (by decide),
      checkField_filter_other _ _ _ _ (by decide)]
    simp [checkField_length]
  | email =>
    unfold validateRaw offends
    rw [List.filter_append, List.filter_append, List.filter_append,
      checkField_filter_other _ _ _ _ (by decide),
      checkField_filter_self,
      checkField_filter_other _ _ _ _ (by decide),
      checkField_filter_other _ _ _ _ (by decide)]
    simp [checkField_length]
  | subject =>
    unfold validateRaw offends
    rw [List.filter_append, List.filter_append, List.filter_append,
      checkField_filter_other _ _ _ _ (by decide),
      checkField_filter_other _ _ _ _ (by decide),
      checkField_filter_self,
      checkField_filter_other _ _ _ _ (by decide)]
    simp [checkField_length]
  | message =>
    unfold validateRaw offends
    rw [List.filter_append, List.filter_append, List.filter_append,
      checkField_filter_other _ _ _ _ (by decide),
      checkField_filter_other _ _ _ _ (by decide),
      checkField_filter_other _ _ _ _ (by decide),
      checkField_filter_self]
    simp [checkField_length]

theorem validateRaw_eq_nil_iff (rp : RawPayload) :
    validateRaw rp = [] ↔ ∀ f, offends rp f = false := by
  unfold validateRaw
  rw [List.append_eq_nil, List.append_eq_nil, List.append_eq_nil]
  constructor
  · rintro ⟨⟨⟨h1, h2⟩, h3⟩, h4⟩ f
    cases f with
    | name => exact (checkField_eq_nil_iff _ _ _).mp h1
    | email => exact (checkField_eq_nil_iff _ _ _).mp h2
    | subject => exact (checkField_eq_nil_iff _ _ _).mp h3
    | message => exact (checkField_eq_nil_iff _ _ _).mp h4
  · intro h
    exact ⟨⟨⟨(checkField_eq_nil_iff _ _ _).mpr (h FieldName.name),
      (checkField_eq_nil_iff _ _ _).mpr (h FieldName.email)⟩,
      (checkField_eq_nil_iff _ _ _).mpr (h FieldName.subject)⟩,
      (checkField_eq_nil_iff _ _ _).mpr (h FieldName.message)⟩

/-! ### The rate limiter and the submit operation -/

theorem prune_eq_self (log : List Nat) (t : Nat)
    (h : ∀ ts ∈ log, t < ts + WINDOW) : prune log t = log := by
  unfold prune
  rw [List.filter_eq_self]
  intro ts hts
  unfold inWindow
  exact decide_eq_true (h ts hts)

theorem filter_length_lt {α : Type} (l : List α) (p : α → Bool) (x : α)
    (hx : x ∈ l) (hpx : p x = false) :
    (l.filter p).length < l.length := by
  induction l with
  | nil => cases hx
  | cons c cs ih =>
    rcases List.mem_cons.mp hx with h1 | h1
    · subst h1
      rw [List.filter_cons, if_neg (by simp [hpx])]
      have := List.length_filter_le p cs
      simpa using Nat.lt_succ_of_le this
    · rw [List.filter_cons]
      split
      · simpa using Nat.succ_lt_succ (ih h1)
      · have := List.length_filter_le p cs
        simp only [List.length_cons]
        omega

theorem foldl_min_mem (xs : List Nat) :
    ∀ x, xs.foldl minN x ∈ x :: xs := by
  induction xs with
  | nil => intro x; simp [List.foldl]
  | cons y ys ih =>
    intro x
    show List.foldl minN (minN x y) ys ∈ x :: y :: ys
    have h := ih (minN x y)
    by_cases hxy : x ≤ y
    · have hmin : minN x y = x := by
        unfold minN
        rw [if_pos hxy]
      rw [hmin] at h ⊢
      rcases List.mem_cons.mp h with h1 | h1
      · exact List.mem_cons.mpr (Or.inl h1)
      · exact List.mem_cons.mpr (Or.inr (List.mem_cons.mpr (Or.inr h1)))
    · have hmin : minN x y = y := by
        unfold minN
        rw [if_neg hxy]
      rw [hmin] at h ⊢
      rcases List.mem_cons.mp h with h1 | h1
      · exact List.mem_cons.mpr (Or.inr (List.mem_cons.mpr (Or.inl h1)))
      · exact List.mem_cons.mpr (Or.inr (List.mem_cons.mpr (Or.inr h1)))

theorem minTs_mem (l : List Nat) (h : l ≠ []) : minTs l ∈ l := by
  cases l with
  | nil => exact absurd rfl h
  | cons x xs => exact foldl_min_mem xs x

theorem retryAfter_pos (log : List Nat) (t : Nat) (hne : log ≠ [])
    (h : ∀ ts ∈ log, t < ts + WINDOW) :
    0 < retryAfterSeconds log t := by
  have := h _ (minTs_mem log hne)
  unfold retryAfterSeconds
  omega

theorem deliverOk_false_iff (d : Nat → DeliveryOutcome) :
    deliverOk d = false ↔
      ∀ i, i < RETRIES → d i ≠ DeliveryOutcome.receipt := by
  unfold deliverOk
  rw [← Bool.not_eq_true, List.any_eq_true]
  constructor
  · intro h i hi hr
    exact h ⟨i, List.mem_range.mpr hi, by rw [hr]; rfl⟩
  · rintro h ⟨i, hi, hr⟩
    exact h i (List.mem_range.mp hi) (by simpa using hr)

theorem submit_429 (d : Nat → DeliveryOutcome) (st : RLState)
    (rp : RawPayload) (a : Str) (t : Nat)
    (h : MAXREQ ≤ (prune (st a) t).length) :
    submit d st rp a t =
      (SubmissionResult.rateLimited (retryAfterSeconds (prune (st a) t) t),
       setLog st a (prune (st a) t)) := by
  unfold submit
  rw [if_pos h]

theorem submit_admitted_state (d : Nat → DeliveryOutcome) (st : RLState)
    (rp : RawPayload) (a : Str) (t : Nat)
    (h : (prune (st a) t).length < MAXREQ) :
    (submit d st rp a t).2 = setLog st a (t :: prune (st a) t) := by
  unfold submit
  rw [if_neg (by omega)]
  split
  · split <;> rfl
  · rfl

theorem submit_ok_full (d : Nat → DeliveryOutcome) (st : RLState)
    (rp : RawPayload) (a : Str) (t : Nat)
    (h : (prune (st a) t).length < MAXREQ)
    (hv : validateRaw rp = []) (hd : deliverOk d = true) :
    submit d st rp a t =
      (SubmissionResult.ok, setLog st a (t :: prune (st a) t)) := by
  unfold submit
  rw [if_neg (by omega), if_pos hv, if_pos hd]

theorem submit_vf (d : Nat → DeliveryOutcome) (st : RLState)
    (rp : RawPayload) (a : Str) (t : Nat)
    (h : (prune (st a) t).length < MAXREQ) (hbad : validateRaw rp ≠ []) :
    submit d st rp a t =
      (SubmissionResult.validationFailed (validateRaw rp),
       setLog st a (t :: prune (st a) t)) := by
  unfold submit
  rw [if_neg (by omega), if_neg hbad]

theorem minN_right (u v : Nat) (h : v ≤ u) : minN u v = v := by
  unfold minN
  split <;> omega

theorem submit_df (d : Nat → DeliveryOutcome) (st : RLState)
    (rp : RawPayload) (a : Str) (t : Nat)
    (h : (prune (st a) t).length < MAXREQ)
    (hv : validateRaw rp = []) (hd : deliverOk d = false) :
    submit d st rp a t =
      (SubmissionResult.dispatchFailed,
       setLog st a (t :: prune (st a) t)) := by
  unfold submit
  rw [if_neg (by omega), if_pos hv, if_neg (by rw [hd]; simp)]

/-! ### Claim C1: every offending field is reported, via a 400 response -/

/-- Counterexample to claim C1 as stated: a request whose payload misses
every field is nevertheless answered with 429, not 400, because the rate
limiter runs before the validators; here the source address already has
five counted requests in the current window. -/
theorem validation_errors_complete_cex :
    (submit dOk stFull rpEmpty addr0 0).1 =
      SubmissionResult.rateLimited 3600 ∧
    httpStatus (submit dOk stFull rpEmpty addr0 0).1 = 429 ∧
    offends rpEmpty FieldName.name = true := by decide

/-- Claim C1 (amended): for every submit call that is not rate-limited
(fewer than `MAXREQ` counted requests in the source's current window) and
whose payload has at least one offending field, the result is a 400
validation failure whose `errors` list carries exactly one `(field,
reason)` entry for every offending field — not only the first. -/
theorem validation_errors_complete (d : Nat → DeliveryOutcome)
    (st : RLState) (rp : RawPayload) (a : Str) (t : Nat)
    (hcnt : (prune (st a) t).length < MAXREQ)
    (hbad : ∃ f, offends rp f = true) :
    (submit d st rp a t).1 =
      SubmissionResult.validationFailed (validateRaw rp) ∧
    httpStatus (submit d st rp a t).1 = 400 ∧
    ∀ f, ((validateRaw rp).filter (fun e => decide (e.1 = f))).length =
      if offends rp f = true then 1 else 0 := by
  have hne : validateRaw rp ≠ [] := by
    obtain ⟨f, hf⟩ := hbad
    intro h0
    have := (validateRaw_eq_nil_iff rp).mp h0 f
    rw [hf] at this
    cases this
  have h1 : (submit d st rp a t).1 =
      SubmissionResult.validationFailed (validateRaw rp) := by
    rw [submit_vf d st rp a t hcnt hne]
  exact ⟨h1, by rw [h1]; rfl, fun f => validateRaw_filter rp f⟩

/-- Witness for the amended C1: a payload with a missing name, malformed
e-mail and short subject yields a 400 with one entry per offending
field. -/
theorem validation_errors_complete_w :
    (submit dOk stEmpty rpBad addr0 0).1 =
      SubmissionResult.validationFailed (validateRaw rpBad) ∧
    httpStatus (submit dOk stEmpty rpBad addr0 0).1 = 400 ∧
    ∀ f, ((validateRaw rpBad).filter (fun e => decide (e.1 = f))).length =
      if offends rpBad f = true then 1 else 0 :=
  validation_errors_complete dOk stEmpty rpBad addr0 0 (by decide)
    ⟨FieldName.name, by decide⟩

/-! ### Claim C2: the rolling-window ceiling of five -/

/-- Claim C2: a single source address issuing six otherwise-valid
submissions inside one rolling hour gets 200 for submissions 1-5 and 429
with `retryAfter > 0` for submission 6, so its counted requests never
exceed the ceiling of five in the window. -/
theorem rolling_window_ceiling (st0 : RLState) (a : Str) (rp : RawPayload)
    (d : Nat → DeliveryOutcome) (t1 t2 t3 t4 t5 t6 : Nat)
    (h0 : st0 a = [])
    (h12 : t1 ≤ t2) (h23 : t2 ≤ t3) (h34 : t3 ≤ t4) (h45 : t4 ≤ t5)
    (h56 : t5 ≤ t6) (hw : t6 < t1 + WINDOW)
    (hv : validateRaw rp = []) (hd : deliverOk d = true) :
    (runSame d rp a st0 [t1, t2, t3, t4, t5, t6]).1 =
      [SubmissionResult.ok, SubmissionResult.ok, SubmissionResult.ok,
       SubmissionResult.ok, SubmissionResult.ok,
       SubmissionResult.rateLimited (t1 + WINDOW - t6)] ∧
    0 < t1 + WINDOW - t6 ∧
    httpStatus (SubmissionResult.rateLimited (t1 + WINDOW - t6)) = 429 ∧
    httpStatus SubmissionResult.ok = 200 := by
  have e0 : prune (st0 a) t1 = [] := by
    rw [h0]
    rfl
  have s1 : submit d st0 rp a t1 =
      (SubmissionResult.ok, setLog st0 a [t1]) := by
    have h := submit_ok_full d st0 rp a t1 (by rw [e0]; decide) hv hd
    rw [e0] at h
    exact h
  have e1 : prune ((setLog st0 a [t1]) a) t2 = [t1] := by
    rw [show (setLog st0 a [t1]) a = [t1] from by simp [setLog]]
    apply prune_eq_self
    intro ts hts
    simp at hts
    omega
  have s2 : submit d (setLog st0 a [t1]) rp a t2 =
      (SubmissionResult.ok, setLog (setLog st0 a [t1]) a [t2, t1]) := by
    have h := submit_ok_full d (setLog st0 a [t1]) rp a t2
      (by rw [e1]; show (1:Nat) < MAXREQ; decide) hv hd
    rw [e1] at h
    exact h
  have e2 : prune ((setLog (setLog st0 a [t1]) a [t2, t1]) a) t3 =
      [t2, t1] := by
    rw [show (setLog (setLog st0 a [t1]) a [t2, t1]) a = [t2, t1] from by
      simp [setLog]]
    apply prune_eq_self
    intro ts hts
    simp at hts
    rcases hts with h | h <;> omega
  have s3 : submit d (setLog (setLog st0 a [t1]) a [t2, t1]) rp a t3 =
      (SubmissionResult.ok,
       setLog (setLog (setLog st0 a [t1]) a [t2, t1]) a [t3, t2, t1]) := by
    have h := submit_ok_full d (setLog (setLog st0 a [t1]) a [t2, t1]) rp a
      t3 (by rw [e2]; show (2:Nat) < MAXREQ; decide) hv hd
    rw [e2] at h
    exact h
  have e3 : prune
      ((setLog (setLog (setLog st0 a [t1]) a [t2, t1]) a [t3, t2, t1]) a)
      t4 = [t3, t2, t1] := by
    rw [show (setLog (setLog (setLog st0 a [t1]) a [t2, t1]) a
        [t3, t2, t1]) a = [t3, t2, t1] from by simp [setLog]]
    apply prune_eq_self
    intro ts hts
    simp at hts
    rcases hts with h | h | h <;> omega
  have s4 : submit d
      (setLog (setLog (setLog st0 a [t1]) a [t2, t1]) a [t3, t2, t1]) rp a
      t4 =
      (SubmissionResult.ok,
       setLog (setLog (setLog (setLog st0 a [t1]) a [t2, t1]) a
         [t3, t2, t1]) a [t4, t3, t2, t1]) := by
    have h := submit_ok_full d
      (setLog (setLog (setLog st0 a [t1]) a [t2, t1]) a [t3, t2, t1]) rp a
      t4 (by rw [e3]; show (3:Nat) < MAXREQ; decide) hv hd
    rw [e3] at h
    exact h
  have e4 : prune
      ((setLog (setLog (setLog (setLog st0 a [t1]) a [t2, t1]) a
        [t3, t2, t1]) a [t4, t3, t2, t1]) a) t5 = [t4, t3, t2, t1] := by
    rw [show (setLog (setLog (setLog (setLog st0 a [t1]) a [t2, t1]) a
        [t3, t2, t1]) a [t4, t3, t2, t1]) a = [t4, t3, t2, t1] from by
      simp [setLog]]
    apply prune_eq_self
    intro ts hts
    simp at hts
    rcases hts with h | h | h | h <;> omega
  have s5 : submit d
      (setLog (setLog (setLog (setLog st0 a [t1]) a [t2, t1]) a
        [t3, t2, t1]) a [t4, t3, t2, t1]) rp a t5 =
      (SubmissionResult.ok,
       setLog (setLog (setLog (setLog (setLog st0 a [t1]) a [t2, t1]) a
         [t3, t2, t1]) a [t4, t3, t2, t1]) a [t5, t4, t3, t2, t1]) := by
    have h := submit_ok_full d
      (setLog (setLog (setLog (setLog st0 a [t1]) a [t2, t1]) a
        [t3, t2, t1]) a [t4, t3, t2, t1]) rp a t5
      (by rw [e4]; show (4:Nat) < MAXREQ; decide) hv hd
    rw [e4] at h
    exact h
  have e5 : prune
      ((setLog (setLog (setLog (setLog (setLog st0 a [t1]) a [t2, t1]) a
        [t3, t2, t1]) a [t4, t3, t2, t1]) a [t5, t4, t3, t2, t1]) a) t6 =
      [t5, t4, t3, t2, t1] := by
    rw [show (setLog (setLog (setLog (setLog (setLog st0 a [t1]) a
        [t2, t1]) a [t3, t2, t1]) a [t4, t3, t2, t1]) a
        [t5, t4, t3, t2, t1]) a = [t5, t4, t3, t2, t1] from by
      simp [setLog]]
    apply prune_eq_self
    intro ts hts
    simp at hts
    rcases hts with h | h | h | h | h <;> omega
  have hretry : retryAfterSeconds [t5, t4, t3, t2, t1] t6 =
      t1 + WINDOW - t6 := by
    show List.foldl minN t5 [t4, t3, t2, t1] + WINDOW - t6 =
      t1 + WINDOW - t6
    simp only [List.foldl]
    rw [minN_right t5 t4 h45, minN_right t4 t3 h34, minN_right t3 t2 h23,
      minN_right t2 t1 h12]
  have s6 : submit d
      (setLog (setLog (setLog (setLog (setLog st0 a [t1]) a [t2, t1]) a
        [t3, t2, t1]) a [t4, t3, t2, t1]) a [t5, t4, t3, t2, t1]) rp a
      t6 =
      (SubmissionResult.rateLimited (t1 + WINDOW - t6),
       setLog (setLog (setLog (setLog (setLog (setLog st0 a [t1]) a
         [t2, t1]) a [t3, t2, t1]) a [t4, t3, t2, t1]) a
         [t5, t4, t3, t2, t1]) a [t5, t4, t3, t2, t1]) := by
    have h := submit_429 d
      (setLog (setLog (setLog (setLog (setLog st0 a [t1]) a [t2, t1]) a
        [t3, t2, t1]) a [t4, t3, t2, t1]) a [t5, t4, t3, t2, t1]) rp a t6
      (by rw [e5]; show MAXREQ ≤ (5:Nat); decide)
    rw [e5, hretry] at h
    exact h
  refine ⟨?_, by omega, rfl, rfl⟩
  simp only [runSame, s1, s2, s3, s4, s5, s6]

/-- Witness for C2 at concrete times inside one window. -/
theorem rolling_window_ceiling_w :
    (runSame dOk rpGood addr0 stEmpty [100, 200, 300, 400, 500, 600]).1 =
      [SubmissionResult.ok, SubmissionResult.ok, SubmissionResult.ok,
       SubmissionResult.ok, SubmissionResult.ok,
       SubmissionResult.rateLimited (100 + WINDOW - 600)] ∧
    0 < 100 + WINDOW - 600 ∧
    httpStatus (SubmissionResult.rateLimited (100 + WINDOW - 600)) = 429 ∧
    httpStatus SubmissionResult.ok = 200 :=
  rolling_window_ceiling stEmpty addr0 rpGood dOk 100 200 300 400 500 600
    rfl (by decide) (by decide) (by decide) (by decide) (by decide)
    (by decide) (by decide) (by decide)

/-! ### Claim C3: when the quota is consumed -/

/-- Counterexample to claim C3 as stated: a request that fails validation
(here: the empty payload) still consumes one unit of quota, because the
limiter middleware counts the request before the validators run.  From an
empty window, the request is answered 400 yet the address's counted log
grows from `[]` to `[7]`. -/
theorem quota_increment_cex :
    (submit dOk stEmpty rpEmpty addr0 7).1 =
      SubmissionResult.validationFailed
        [(FieldName.name, FieldReason.missing),
         (FieldName.email, FieldReason.missing),
         (FieldName.subject, FieldReason.missing),
         (FieldName.message, FieldReason.missing)] ∧
    (submit dOk stEmpty rpEmpty addr0 7).2 addr0 = [7] := by decide

/-- Claim C3 (amended): the counted log of the source address grows by
exactly the current request, before validation runs: every request that is
not itself rate-limited consumes exactly one unit of quota regardless of
whether validation or dispatch succeeds, and no other address's window is
touched. -/
theorem quota_increment_amended (d : Nat → DeliveryOutcome) (st : RLState)
    (rp : RawPayload) (a : Str) (t : Nat)
    (h : (prune (st a) t).length < MAXREQ) :
    (submit d st rp a t).2 a = t :: prune (st a) t ∧
    ∀ b, b ≠ a → (submit d st rp a t).2 b = st b := by
  rw [submit_admitted_state d st rp a t h]
  constructor
  · simp [setLog]
  · intro b hb
    simp [setLog, hb]

/-- Witness for the amended C3: an invalid payload still consumes one unit
of quota. -/
theorem quota_increment_amended_w :
    (submit dOk stEmpty rpEmpty addr0 7).2 addr0 =
      7 :: prune (stEmpty addr0) 7 ∧
    ∀ b, b ≠ addr0 → (submit dOk stEmpty rpEmpty addr0 7).2 b =
      stEmpty b :=
  quota_increment_amended dOk stEmpty rpEmpty addr0 7 (by decide)

/-! ### Claim C5: dispatch exhaustion is the one source of 500, and it is
generic -/

/-- Claim C5: the result is `DispatchFailed` exactly when the request
passed the limiter and validation and every attempt within the retry
bound failed; the 500 response carries only the constant generic message,
and two channels that both exhaust the retry bound produce identical
responses and states whatever their transport errors were. -/
theorem dispatch_failure_generic (d : Nat → DeliveryOutcome) (st : RLState)
    (rp : RawPayload) (a : Str) (t : Nat) :
    ((submit d st rp a t).1 = SubmissionResult.dispatchFailed ↔
      ((prune (st a) t).length < MAXREQ ∧ validateRaw rp = [] ∧
       ∀ i, i < RETRIES → d i ≠ DeliveryOutcome.receipt)) ∧
    httpStatus SubmissionResult.dispatchFailed = 500 ∧
    responseMessage SubmissionResult.dispatchFailed =
      "An error occurred while processing your request. Please try again later." ∧
    ∀ d2 : Nat → DeliveryOutcome,
      (∀ i, i < RETRIES → d i ≠ DeliveryOutcome.receipt) →
      (∀ i, i < RETRIES → d2 i ≠ DeliveryOutcome.receipt) →
      submit d st rp a t = submit d2 st rp a t := by
  refine ⟨?_, rfl, rfl, ?_⟩
  · by_cases h1 : MAXREQ ≤ (prune (st a) t).length
    · rw [submit_429 d st rp a t h1]
      constructor
      · intro hx
        simp at hx
      · rintro ⟨hc, -, -⟩
        omega
    · have h1' : (prune (st a) t).length < MAXREQ := by omega
      by_cases h2 : validateRaw rp = []
      · cases h3 : deliverOk d with
        | true =>
          rw [submit_ok_full d st rp a t h1' h2 h3]
          constructor
          · intro hx
            simp at hx
          · rintro ⟨-, -, hall⟩
            have hf := (deliverOk_false_iff d).mpr hall
            rw [h3] at hf
            cases hf
        | false =>
          rw [submit_df d st rp a t h1' h2 h3]
          constructor
          · intro _
            exact ⟨h1', h2, (deliverOk_false_iff d).mp h3⟩
          · intro _
            rfl
      · rw [submit_vf d st rp a t h1' h2]
        constructor
        · intro hx
          simp at hx
        · rintro ⟨-, hv2, -⟩
          exact absurd hv2 h2
  · intro d2 hA hB
    have hdA : deliverOk d = false := (deliverOk_false_iff d).mpr hA
    have hdB : deliverOk d2 = false := (deliverOk_false_iff d2).mpr hB
    by_cases h1 : MAXREQ ≤ (prune (st a) t).length
    · rw [submit_429 d st rp a t h1, submit_429 d2 st rp a t h1]
    · have h1' : (prune (st a) t).length < MAXREQ := by omega
      by_cases h2 : validateRaw rp = []
      · rw [submit_df d st rp a t h1' h2 hdA,
          submit_df d2 st rp a t h1' h2 hdB]
      · rw [submit_vf d st rp a t h1' h2, submit_vf d2 st rp a t h1' h2]

/-- Witness for C5: a channel failing all three attempts turns an
otherwise-valid submission into a 500, identically for two different
transport errors. -/
theorem dispatch_failure_generic_w :
    (submit dFail stEmpty rpGood addr0 0).1 =
      SubmissionResult.dispatchFailed ∧
    submit dFail stEmpty rpGood addr0 0 =
      submit dFail2 stEmpty rpGood addr0 0 :=
  ⟨((dispatch_failure_generic dFail stEmpty rpGood addr0 0).1).mpr
      ⟨by decide, by decide, by decide⟩,
    (dispatch_failure_generic dFail stEmpty rpGood addr0 0).2.2.2 dFail2
      (by decide) (by decide)⟩

/-! ### Claim C6: a fully elapsed window unblocks the address -/

/-- Claim C6: once the rolling window has elapsed for a source address —
its counted log holds at most the ceiling of entries and its oldest
counted request has aged out — an otherwise-valid submission from that
address is accepted with 200. -/
theorem window_elapsed_unblocks (d : Nat → DeliveryOutcome) (st : RLState)
    (rp : RawPayload) (a : Str) (t : Nat)
    (hlen : (st a).length ≤ MAXREQ)
    (hold : ∃ ts ∈ st a, ts + WINDOW ≤ t)
    (hv : validateRaw rp = []) (hd : deliverOk d = true) :
    (submit d st rp a t).1 = SubmissionResult.ok ∧
    httpStatus (submit d st rp a t).1 = 200 := by
  obtain ⟨ts, hmem, hts⟩ := hold
  have hfail : inWindow t ts = false := by
    unfold inWindow
    simp
    omega
  have hp : (prune (st a) t).length < (st a).length :=
    filter_length_lt (st a) (inWindow t) ts hmem hfail
  have hcnt : (prune (st a) t).length < MAXREQ := by omega
  have h := submit_ok_full d st rp a t hcnt hv hd
  rw [h]
  exact ⟨rfl, rfl⟩

/-- Witness for C6: an address blocked with five counted requests at time
0 submits successfully at time 3600, once the window has elapsed. -/
theorem window_elapsed_unblocks_w :
    (submit dOk stFull rpGood addr0 3600).1 = SubmissionResult.ok ∧
    httpStatus (submit dOk stFull rpGood addr0 3600).1 = 200 :=
  window_elapsed_unblocks dOk stFull rpGood addr0 3600 (by decide)
    ⟨0, by decide, by decide⟩ (by decide) (by decide)

/-! ### The front-end submit handler -/

theorem contactFormSubmit_of_valid (inp : FormInput) (origLabel : String)
    (f : FetchOutcome)
    (hn : trim inp.name ≠ []) (he : trim inp.email ≠ [])
    (hs : trim inp.subject ≠ []) (hm : trim inp.message ≠ [])
    (hek : emailOk (trim inp.email) = true) :
    contactFormSubmit inp origLabel f =
      [Ev.setDisabled true, Ev.setLabel sendingLabel,
       Ev.fetchStart ⟨trim inp.name, trim inp.email, trim inp.subject,
         trim inp.message⟩, Ev.fetchEnd] ++
      (match f with
       | FetchOutcome.response true _ =>
           [Ev.showMessage clientSuccessMsg MsgKind.success, Ev.reset]
       | FetchOutcome.response false _ =>
           [Ev.showMessage clientErrorMsg MsgKind.error]
       | FetchOutcome.networkError =>
           [Ev.showMessage clientErrorMsg MsgKind.error]) ++
      [Ev.setDisabled false, Ev.setLabel origLabel] := by
  simp only [contactFormSubmit]
  rw [if_neg (by push_neg; exact ⟨hn, he, hs, hm⟩), if_neg (by simp [hek])]

/-- Claim C7 counterexample: on an ok response whose body `message` is the
server's "Message sent successfully", the handler displays its own
hard-coded string, and no event displays the server's `message` text. -/
theorem frontend_message_cex :
    Ev.showMessage clientSuccessMsg MsgKind.success ∈
      contactFormSubmit inpGood okLabel
        (FetchOutcome.response true (some "Message sent successfully")) ∧
    Ev.showMessage "Message sent successfully" MsgKind.success ∉
      contactFormSubmit inpGood okLabel
        (FetchOutcome.response true (some "Message sent successfully")) ∧
    Ev.showMessage "Message sent successfully" MsgKind.error ∉
      contactFormSubmit inpGood okLabel
        (FetchOutcome.response true (some "Message sent successfully")) := by
  decide

/-- Claim C7 (amended): for every submission passing the client checks the
handler issues the POST with the trimmed field values, keeps the submit
control disabled for the whole in-flight request (it is disabled before
the fetch and re-enabled only as the final actions), and displays a fixed
client-side status string chosen by outcome — not the `message` string of
the server's response body. -/
theorem frontend_post_and_fixed_messages (inp : FormInput)
    (origLabel : String) (f : FetchOutcome)
    (hn : trim inp.name ≠ []) (he : trim inp.email ≠ [])
    (hs : trim inp.subject ≠ []) (hm : trim inp.message ≠ [])
    (hek : emailOk (trim inp.email) = true) :
    contactFormSubmit inp origLabel f =
      [Ev.setDisabled true, Ev.setLabel sendingLabel,
       Ev.fetchStart ⟨trim inp.name, trim inp.email, trim inp.subject,
         trim inp.message⟩, Ev.fetchEnd] ++
      (match f with
       | FetchOutcome.response true _ =>
           [Ev.showMessage clientSuccessMsg MsgKind.success, Ev.reset]
       | FetchOutcome.response false _ =>
           [Ev.showMessage clientErrorMsg MsgKind.error]
       | FetchOutcome.networkError =>
           [Ev.showMessage clientErrorMsg MsgKind.error]) ++
      [Ev.setDisabled false, Ev.setLabel origLabel] :=
  contactFormSubmit_of_valid inp origLabel f hn he hs hm hek

/-- Witness for the amended C7 on a non-ok response. -/
theorem frontend_post_and_fixed_messages_w :
    contactFormSubmit inpGood okLabel (FetchOutcome.response false none) =
      [Ev.setDisabled true, Ev.setLabel sendingLabel,
       Ev.fetchStart ⟨trim inpGood.name, trim inpGood.email,
         trim inpGood.subject, trim inpGood.message⟩, Ev.fetchEnd] ++
      [Ev.showMessage clientErrorMsg MsgKind.error] ++
      [Ev.setDisabled false, Ev.setLabel okLabel] :=
  frontend_post_and_fixed_messages inpGood okLabel
    (FetchOutcome.response false none) (by decide) (by decide) (by decide)
    (by decide) (by decide)

/-- Claim C8: when any trimmed field is empty or the e-mail fails the
client regex, the handler shows an error message and issues no fetch. -/
theorem invalid_input_no_fetch (inp : FormInput) (origLabel : String)
    (f : FetchOutcome)
    (h : trim inp.name = [] ∨ trim inp.email = [] ∨ trim inp.subject = [] ∨
      trim inp.message = [] ∨ emailOk (trim inp.email) = false) :
    (∃ m, Ev.showMessage m MsgKind.error ∈
      contactFormSubmit inp origLabel f) ∧
    ∀ pl, Ev.fetchStart pl ∉ contactFormSubmit inp origLabel f := by
  simp only [contactFormSubmit]
  by_cases h1 : trim inp.name = [] ∨ trim inp.email = [] ∨
      trim inp.subject = [] ∨ trim inp.message = []
  · rw [if_pos h1]
    exact ⟨⟨fillAllMsg, by simp⟩, fun pl => by simp⟩
  · rw [if_neg h1]
    have h2 : emailOk (trim inp.email) = false := by tauto
    rw [if_pos h2]
    exact ⟨⟨invalidEmailMsg, by simp⟩, fun pl => by simp⟩

/-- Witness for C8: an all-whitespace name aborts before any fetch. -/
theorem invalid_input_no_fetch_w :
    (∃ m, Ev.showMessage m MsgKind.error ∈
      contactFormSubmit inpNoName okLabel FetchOutcome.networkError) ∧
    ∀ pl, Ev.fetchStart pl ∉
      contactFormSubmit inpNoName okLabel FetchOutcome.networkError :=
  invalid_input_no_fetch inpNoName okLabel FetchOutcome.networkError
    (Or.inl (by decide))

/-- Claim C9: every submission reaching the network call disables the
button and sets its label to "Sending..." before the fetch, and on every
outcome the final actions re-enable the button and restore the original
label, with no other button mutation in between. -/
theorem button_disabled_during_send (inp : FormInput) (origLabel : String)
    (f : FetchOutcome)
    (hn : trim inp.name ≠ []) (he : trim inp.email ≠ [])
    (hs : trim inp.subject ≠ []) (hm : trim inp.message ≠ [])
    (hek : emailOk (trim inp.email) = true) :
    ∃ mid, contactFormSubmit inp origLabel f =
      [Ev.setDisabled true, Ev.setLabel sendingLabel,
       Ev.fetchStart ⟨trim inp.name, trim inp.email, trim inp.subject,
         trim inp.message⟩] ++ mid ++
      [Ev.setDisabled false, Ev.setLabel origLabel] ∧
      (∀ b, Ev.setDisabled b ∉ mid) ∧ ∀ s, Ev.setLabel s ∉ mid := by
  rw [contactFormSubmit_of_valid inp origLabel f hn he hs hm hek]
  cases f with
  | response ok body =>
    cases ok with
    | true =>
      refine ⟨[Ev.fetchEnd, Ev.showMessage clientSuccessMsg MsgKind.success,
        Ev.reset], rfl, ?_, ?_⟩
      · intro b
        simp
      · intro s
        simp
    | false =>
      refine ⟨[Ev.fetchEnd, Ev.showMessage clientErrorMsg MsgKind.error],
        rfl, ?_, ?_⟩
      · intro b
        simp
      · intro s
        simp
  | networkError =>
    refine ⟨[Ev.fetchEnd, Ev.showMessage clientErrorMsg MsgKind.error],
      rfl, ?_, ?_⟩
    · intro b
      simp
    · intro s
      simp

/-- Witness for C9 on a network error. -/
theorem button_disabled_during_send_w :
    ∃ mid, contactFormSubmit inpGood okLabel FetchOutcome.networkError =
      [Ev.setDisabled true, Ev.setLabel sendingLabel,
       Ev.fetchStart ⟨trim inpGood.name, trim inpGood.email,
         trim inpGood.subject, trim inpGood.message⟩] ++ mid ++
      [Ev.setDisabled false, Ev.setLabel okLabel] ∧
      (∀ b, Ev.setDisabled b ∉ mid) ∧ ∀ s, Ev.setLabel s ∉ mid :=
  button_disabled_during_send inpGood okLabel FetchOutcome.networkError
    (by decide) (by decide) (by decide) (by decide) (by decide)

/-- Claim C10: the handler emits the form-reset action exactly when the
client checks passed and the response status was ok; on a non-ok response
or a network failure the field values are left untouched. -/
theorem reset_only_on_ok (inp : FormInput) (origLabel : String)
    (f : FetchOutcome) :
    Ev.reset ∈ contactFormSubmit inp origLabel f ↔
      ((trim inp.name ≠ [] ∧ trim inp.email ≠ [] ∧ trim inp.subject ≠ [] ∧
        trim inp.message ≠ [] ∧ emailOk (trim inp.email) = true) ∧
       ∃ body, f = FetchOutcome.response true body) := by
  by_cases h1 : trim inp.name = [] ∨ trim inp.email = [] ∨
      trim inp.subject = [] ∨ trim inp.message = []
  · simp only [contactFormSubmit]
    rw [if_pos h1]
    constructor
    · intro hx
      simp at hx
    · rintro ⟨⟨hn, he, hs, hm, -⟩, -⟩
      rcases h1 with h | h | h | h <;> contradiction
  · by_cases h2 : emailOk (trim inp.email) = false
    · simp only [contactFormSubmit]
      rw [if_neg h1, if_pos h2]
      constructor
      · intro hx
        simp at hx
      · rintro ⟨⟨-, -, -, -, hek⟩, -⟩
        rw [hek] at h2
        cases h2
    · have hek : emailOk (trim inp.email) = true := by
        cases hb : emailOk (trim inp.email) with
        | true => rfl
        | false => exact absurd hb h2
      push_neg at h1
      obtain ⟨hn, he, hs, hm⟩ := h1
      rw [contactFormSubmit_of_valid inp origLabel f hn he hs hm hek]
      cases f with
      | response ok body =>
        cases ok with
        | true =>
          simp only [List.mem_append]
          constructor
          · intro _
            exact ⟨⟨hn, he, hs, hm, hek⟩, body, rfl⟩
          · intro _
            simp
        | false =>
          constructor
          · intro hx
            simp at hx
          · rintro ⟨-, body2, hb⟩
            cases hb
      | networkError =>
        constructor
        · intro hx
          simp at hx
        · rintro ⟨-, body2, hb⟩
          cases hb

/-- Witness for C10: the reset action occurs on an ok response. -/
theorem reset_only_on_ok_w :
    Ev.reset ∈ contactFormSubmit inpGood okLabel
      (FetchOutcome.response true none) :=
  (reset_only_on_ok inpGood okLabel (FetchOutcome.response true none)).mpr
    ⟨⟨by decide, by decide, by decide, by decide, by decide⟩, none, rfl⟩

end Portfolio
